import Mathlib

/-!
Verification of the `tbears` block-manager channel service
(`src/tbears/block_manager/channel_service.py`, class `ChannelInnerTask`).

The dispatcher receives decoded requests and serves four handlers:
`create_icx_tx`, `get_invoke_result`, `get_tx_info` and `get_block`.
It owns an in-memory pending-transaction queue (`block_manager.tx_queue`)
and reads committed data from the ledger collaborator
(`block_manager._block`).  The ledger collaborator, the `add_tx` helper,
the `message_code` constants and the `create_hash` primitive live outside
the file under verification; they are modelled from the spec at their
interface boundary, as documented on each such definition.

Python-value conventions used by the embedding:
  * a transaction / block payload is a `Dict` (an insertion-ordered
    association list of string fields, like a decoded JSON object);
  * `Option` models a Python value that may be `None`;
  * Python truthiness of `Optional` values is made explicit
    (`pyTruthyDict`, `pyTruthyInt`);
  * a handler path that would raise an uncaught exception returns `none`.
-/

/-- A decoded JSON-style mapping of string fields, insertion-ordered like a
Python `dict`. -/
abbrev Dict := List (String × String)

/-- Python truthiness of an `Optional[dict]`: `None` and the empty dict are
falsy, a non-empty dict is truthy. -/
def pyTruthyDict : Option Dict → Bool
  | none => false
  | some d => !d.isEmpty

/-- Python truthiness of an `Optional[int]`: `None` and `0` are falsy. -/
def pyTruthyInt : Option Int → Bool
  | none => false
  | some c => c != 0

/-- Serialization of one field of a JSON object, `"key": "value"`. -/
def jsonField (kv : String × String) : String :=
  "\"" ++ kv.1 ++ "\": \"" ++ kv.2 ++ "\""

/-- Modelled from the spec: the canonical serialized form produced by
`json.dumps` (Python standard library, out of scope), "a deterministic byte
encoding of a request used as hash input".  Rendered with `json.dumps`'s
default separators; string escaping is immaterial to the claims. -/
def json_dumps (d : Dict) : String :=
  "\x7b" ++ String.intercalate ", " (d.map jsonField) ++ "\x7d"

/-- One hexadecimal digit. -/
def hexChar (n : Nat) : Char :=
  if n < 10 then Char.ofNat (48 + n) else Char.ofNat (87 + n)

/-- A six-hex-digit rendering of a natural number below `16 ^ 6`. -/
def hex6 (n : Nat) : String :=
  String.mk (((List.range 6).reverse).map (fun i => hexChar (n / 16 ^ i % 16)))

/-- Modelled from the spec: `tbears.util.create_hash`, the opaque Request
Hash Function — "deterministically derives a unique identifier from a
transaction's canonical serialized form. Pure function, no state."  The real
code hex-digests a cryptographic hash of the bytes; it is modelled as a
deterministic injective hex encoding of the input's code points. -/
def create_hash (s : String) : String :=
  String.join (s.toList.map (fun c => hex6 c.toNat))

namespace message_code

/-- Modelled from the spec: `tbears.block_manager.message_code.Response`,
"fixed integers (a stable enumeration)" with "distinct values per kind";
`success` is the neutral zero code and every failure code is nonzero
(the dispatcher tests a failure code for Python truthiness). -/
def Response.success : Int := 0

/-- Modelled from the spec: fixed distinct nonzero failure code. -/
def Response.fail_tx_invalid_duplicated_hash : Int := -6

/-- Modelled from the spec: fixed distinct nonzero failure code. -/
def Response.fail_tx_not_invoked : Int := -7

/-- Modelled from the spec: fixed distinct nonzero failure code. -/
def Response.fail_tx_invalid_hash_not_match : Int := -8

/-- Modelled from the spec: fixed distinct nonzero failure code. -/
def Response.fail_wrong_block_hash : Int := -9

/-- Modelled from the spec: fixed distinct nonzero failure code. -/
def Response.fail_wrong_block_height : Int := -10

end message_code

/-- Modelled from the spec: the ledger collaborator
(`block_manager._block`), specified only at its interface boundary (§6):
lookups return the stored object or `None`.  Fetched blocks are `Dict`s
(the dispatcher subscripts them and re-serializes them with `json.dumps`). -/
structure Ledger where
  get_transaction : String → Option Dict
  get_txresult : String → Option Dict
  get_last_block : Option Dict
  get_block_by_hash : String → Option Dict
  get_block_by_height : Int → Option Dict

/-- Modelled from the spec: the collaborator's committed-check
`has_committed(tx_hash) → bool`.  The dispatcher realizes it as the Python
truthiness of `block_manager._block.get_transaction(tx_hash)`
(channel_service.py line 59). -/
def Ledger.has_committed (L : Ledger) (tx_hash : String) : Bool :=
  pyTruthyDict (L.get_transaction tx_hash)

/-- A pending-queue entry: "append `{hash, tx}` to the pending queue".
The scan in `create_icx_tx` reads the entry's `txHash` field. -/
structure PendingTx where
  txHash : String
  tx : Dict
deriving DecidableEq

/-- The dispatcher's mutable state: the block manager's pending transaction
queue `tx_queue`, and the `ChannelInnerTask.confirmed_tx_list` field
initialized in `__init__` (line 38). -/
structure ChannelState where
  tx_queue : List PendingTx
  confirmed_tx_list : List Dict
deriving DecidableEq

/-- Modelled from the spec: the dispatcher starts with an empty pending
queue; `ChannelInnerTask.__init__` sets `confirmed_tx_list = list()`. -/
def initState : ChannelState :=
  { tx_queue := [], confirmed_tx_list := [] }

/-- Modelled from the spec: `BlockManager.add_tx(tx_hash, tx)` — "append
`{hash, tx}` to the pending queue (ownership transferred to dispatcher)". -/
def add_tx (s : ChannelState) (tx_hash : String) (tx : Dict) : ChannelState :=
  { s with tx_queue := s.tx_queue ++ [{ txHash := tx_hash, tx := tx }] }

/-- Handler `ChannelInnerTask.create_icx_tx` (channel_service.py lines 41-69):
hash the canonical serialization of `kwargs`, scan the pending queue for the
hash, consult the ledger only when the scan found nothing, and either reject
the duplicate or append `{hash, tx}` and acknowledge with `"0x" + hash`. -/
def create_icx_tx (L : Ledger) (s : ChannelState) (kwargs : Dict) :
    (Int × Option String) × ChannelState :=
  let tx_hash := create_hash (json_dumps kwargs)
  let dup_scan := s.tx_queue.any (fun tx => tx_hash == tx.txHash)
  let duplicated_tx :=
    if dup_scan == false && pyTruthyDict (L.get_transaction tx_hash) then true
    else dup_scan
  if duplicated_tx then
    ((message_code.Response.fail_tx_invalid_duplicated_hash, none), s)
  else
    ((message_code.Response.success, some ("0x" ++ tx_hash)), add_tx s tx_hash kwargs)

/-- Handler `ChannelInnerTask.get_invoke_result` (lines 72-85): return the committed
execution result for `tx_hash`, or `fail_tx_not_invoked` with an empty dict
when `get_txresult` returns `None`. -/
def get_invoke_result (L : Ledger) (s : ChannelState) (tx_hash : String) :
    (Int × Dict) × ChannelState :=
  match L.get_txresult tx_hash with
  | none => ((message_code.Response.fail_tx_not_invoked, []), s)
  | some tx_data_json => ((message_code.Response.success, tx_data_json), s)

/-- Handler `ChannelInnerTask.get_tx_info` (lines 88-101): return the committed
transaction body for `tx_hash`, or `fail_tx_invalid_hash_not_match` with an
empty dict when `get_transaction` returns `None`. -/
def get_tx_info (L : Ledger) (s : ChannelState) (tx_hash : String) :
    (Int × Dict) × ChannelState :=
  match L.get_transaction tx_hash with
  | none => ((message_code.Response.fail_tx_invalid_hash_not_match, []), s)
  | some tx_data_json => ((message_code.Response.success, tx_data_json), s)

/-- Handler `ChannelInnerTask.get_block` (lines 103-145).  The selection policy
mirrors the source's `if/elif/else`; the fetched block and the optional
failure code are threaded to the source's `if fail_response_code:` truthiness
test.  A `none` result models an uncaught exception (subscripting `None`, or
a fetched block without a `'block_hash'` key). -/
def get_block (L : Ledger) (s : ChannelState) (block_height : Int)
    (block_hash : String) (block_data_filter : String) (tx_data_filter : String) :
    Option (Int × String × String × List String) × ChannelState :=
  let fetch : Option Dict × Option Int :=
    if block_hash == "" && block_height == -1 then
      match L.get_last_block with
      | none => (none, some message_code.Response.fail_wrong_block_hash)
      | some b => (some b, none)
    else if block_hash != "" then
      match L.get_block_by_hash block_hash with
      | none => (none, some message_code.Response.fail_wrong_block_hash)
      | some b => (some b, none)
    else
      match L.get_block_by_height block_height with
      | none => (none, some message_code.Response.fail_wrong_block_height)
      | some b => (some b, none)
  if pyTruthyInt fetch.2 then
    (some (fetch.2.getD 0, block_hash, "", []), s)
  else
    match fetch.1 with
    | none => (none, s)
    | some block_data_json =>
      match block_data_json.lookup "block_hash" with
      | none => (none, s)
      | some h => (some (message_code.Response.success, h, json_dumps block_data_json, []), s)

/-- One decoded request to the dispatcher. -/
inductive Op where
  | createTx (kwargs : Dict)
  | invokeResult (tx_hash : String)
  | txInfo (tx_hash : String)
  | getBlock (block_height : Int) (block_hash : String)
      (block_data_filter : String) (tx_data_filter : String)

/-- The dispatcher state after handling one request. -/
def step (L : Ledger) (s : ChannelState) : Op → ChannelState
  | Op.createTx kwargs => (create_icx_tx L s kwargs).2
  | Op.invokeResult h => (get_invoke_result L s h).2
  | Op.txInfo h => (get_tx_info L s h).2
  | Op.getBlock bh bhash bf tf => (get_block L s bh bhash bf tf).2

/-- The dispatcher state reached from the initial state by a request
sequence, against a fixed ledger collaborator. -/
def run (L : Ledger) (ops : List Op) : ChannelState :=
  ops.foldl (step L) initState

/-- The transaction identifier `create_icx_tx` computes for a payload
(line 52: `create_hash(json.dumps(kwargs).encode())`). -/
def txHashOf (kwargs : Dict) : String :=
  create_hash (json_dumps kwargs)

/-- A hash is pending when some queue entry carries it. -/
def pendingDup (s : ChannelState) (tx_hash : String) : Prop :=
  ∃ e ∈ s.tx_queue, e.txHash = tx_hash

instance (s : ChannelState) (h : String) : Decidable (pendingDup s h) := by
  unfold pendingDup; infer_instance

/-- A ledger collaborator with nothing committed and no blocks. -/
def emptyLedger : Ledger :=
  { get_transaction := fun _ => none
    get_txresult := fun _ => none
    get_last_block := none
    get_block_by_hash := fun _ => none
    get_block_by_height := fun _ => none }

/-- A concrete block descriptor, carrying its own hash. -/
def sampleBlock : Dict := [("block_hash", "0xb1"), ("height", "1")]

/-- A ledger collaborator holding `sampleBlock` as latest block, at height 1
and under hash `"0xb1"`, plus one committed transaction `"aa"` with a
result. -/
def sampleLedger : Ledger :=
  { get_transaction := fun h => if h == "aa" then some [("from", "hx")] else none
    get_txresult := fun h => if h == "aa" then some [("status", "0x1")] else none
    get_last_block := some sampleBlock
    get_block_by_hash := fun h => if h == "0xb1" then some sampleBlock else none
    get_block_by_height := fun n => if n == 1 then some sampleBlock else none }

/-!  ## Theorems -/

/-- The pending-queue scan of `create_icx_tx` finds the hash exactly when
some pending entry carries it. -/
theorem any_scan_iff_pendingDup (s : ChannelState) (h : String) :
    (s.tx_queue.any (fun e => h == e.txHash) = true) ↔ pendingDup s h := by
  rw [List.any_eq_true]
  unfold pendingDup
  constructor
  · rintro ⟨e, he, hbe⟩
    exact ⟨e, he, (beq_iff_eq.mp hbe).symm⟩
  · rintro ⟨e, he, hbe⟩
    exact ⟨e, he, beq_iff_eq.mpr hbe.symm⟩

/-- Branch lemma: a hash already pending is rejected with no state change,
whatever the ledger holds. -/
theorem create_icx_tx_of_pending (L : Ledger) (s : ChannelState) (tx : Dict)
    (hp : pendingDup s (txHashOf tx)) :
    create_icx_tx L s tx =
      ((message_code.Response.fail_tx_invalid_duplicated_hash, none), s) := by
  have h1 : s.tx_queue.any (fun e => txHashOf tx == e.txHash) = true :=
    (any_scan_iff_pendingDup s (txHashOf tx)).mpr hp
  unfold create_icx_tx
  simp only []
  rw [show create_hash (json_dumps tx) = txHashOf tx from rfl]
  rw [h1]
  simp

/-- Branch lemma: a hash not pending but committed in the ledger is rejected
with no state change. -/
theorem create_icx_tx_of_committed (L : Ledger) (s : ChannelState) (tx : Dict)
    (hnp : ¬ pendingDup s (txHashOf tx))
    (hc : L.has_committed (txHashOf tx) = true) :
    create_icx_tx L s tx =
      ((message_code.Response.fail_tx_invalid_duplicated_hash, none), s) := by
  have h1 : s.tx_queue.any (fun e => txHashOf tx == e.txHash) = false := by
    rw [← Bool.not_eq_true]
    exact fun hcon => hnp ((any_scan_iff_pendingDup s (txHashOf tx)).mp hcon)
  have h2 : pyTruthyDict (L.get_transaction (txHashOf tx)) = true := hc
  unfold create_icx_tx
  simp only []
  rw [show create_hash (json_dumps tx) = txHashOf tx from rfl]
  rw [h1, h2]
  simp

/-- Branch lemma: a fresh hash is appended to the pending queue and
acknowledged. -/
theorem create_icx_tx_of_fresh (L : Ledger) (s : ChannelState) (tx : Dict)
    (hnp : ¬ pendingDup s (txHashOf tx))
    (hc : L.has_committed (txHashOf tx) = false) :
    create_icx_tx L s tx =
      ((message_code.Response.success, some ("0x" ++ txHashOf tx)),
        { s with tx_queue :=
            s.tx_queue ++ [{ txHash := txHashOf tx, tx := tx }] }) := by
  have h1 : s.tx_queue.any (fun e => txHashOf tx == e.txHash) = false := by
    rw [← Bool.not_eq_true]
    exact fun hcon => hnp ((any_scan_iff_pendingDup s (txHashOf tx)).mp hcon)
  have h2 : pyTruthyDict (L.get_transaction (txHashOf tx)) = false := hc
  unfold create_icx_tx
  simp only []
  rw [show create_hash (json_dumps tx) = txHashOf tx from rfl]
  rw [h1, h2]
  simp [add_tx]

/-- C1: `create_icx_tx` follows the specified algorithm: it hashes the
transaction's canonical serialized bytes, rejects with
`fail_tx_invalid_duplicated_hash` and no state change when the hash is
already pending (the ledger is then never decisive: the outcome is the same
for every ledger), rejects likewise when the hash is not pending but the
ledger reports it committed, and otherwise appends `{hash, tx}` to the
pending queue and returns `(success, "0x" + hash)`. -/
theorem create_icx_tx_follows_algorithm (L : Ledger) (s : ChannelState) (tx : Dict) :
    (pendingDup s (txHashOf tx) →
      create_icx_tx L s tx =
        ((message_code.Response.fail_tx_invalid_duplicated_hash, none), s))
    ∧ (¬ pendingDup s (txHashOf tx) → L.has_committed (txHashOf tx) = true →
      create_icx_tx L s tx =
        ((message_code.Response.fail_tx_invalid_duplicated_hash, none), s))
    ∧ (¬ pendingDup s (txHashOf tx) → L.has_committed (txHashOf tx) = false →
      create_icx_tx L s tx =
        ((message_code.Response.success, some ("0x" ++ txHashOf tx)),
          { s with tx_queue :=
              s.tx_queue ++ [{ txHash := txHashOf tx, tx := tx }] })) := by
  exact ⟨create_icx_tx_of_pending L s tx,
    create_icx_tx_of_committed L s tx,
    create_icx_tx_of_fresh L s tx⟩

/-- Handler `get_invoke_result` performs no state mutation. -/
theorem get_invoke_result_preserves_state (L : Ledger) (s : ChannelState) (h : String) :
    (get_invoke_result L s h).2 = s := by
  unfold get_invoke_result
  cases L.get_txresult h <;> rfl

/-- Handler `get_tx_info` performs no state mutation. -/
theorem get_tx_info_preserves_state (L : Ledger) (s : ChannelState) (h : String) :
    (get_tx_info L s h).2 = s := by
  unfold get_tx_info
  cases L.get_transaction h <;> rfl

/-- Handler `get_block` performs no state mutation. -/
theorem get_block_preserves_state (L : Ledger) (s : ChannelState) (bh : Int)
    (bhash bf tf : String) : (get_block L s bh bhash bf tf).2 = s := by
  unfold get_block
  repeat' split
  all_goals simp only []
  all_goals repeat' split
  all_goals rfl

/-- Handler `create_icx_tx` either rejects a duplicate and leaves the state intact,
or appends exactly one fresh entry. -/
theorem create_icx_tx_cases (L : Ledger) (s : ChannelState) (tx : Dict) :
    (create_icx_tx L s tx).2 = s ∨
      (¬ pendingDup s (txHashOf tx) ∧ L.has_committed (txHashOf tx) = false ∧
        (create_icx_tx L s tx).2 =
          { s with tx_queue := s.tx_queue ++ [{ txHash := txHashOf tx, tx := tx }] }) := by
  by_cases hp : pendingDup s (txHashOf tx)
  · left; rw [create_icx_tx_of_pending L s tx hp]
  · cases hc : L.has_committed (txHashOf tx) with
    | true => left; rw [create_icx_tx_of_committed L s tx hp hc]
    | false => right; exact ⟨hp, rfl, by rw [create_icx_tx_of_fresh L s tx hp hc]⟩

/-- A returned `success` code means the hash was neither pending nor
committed. -/
theorem create_icx_tx_success_fresh (L : Ledger) (s : ChannelState) (tx : Dict)
    (hs : ((create_icx_tx L s tx).1).1 = message_code.Response.success) :
    ¬ pendingDup s (txHashOf tx) ∧ L.has_committed (txHashOf tx) = false := by
  by_cases hp : pendingDup s (txHashOf tx)
  · rw [create_icx_tx_of_pending L s tx hp] at hs
    have hbad : message_code.Response.fail_tx_invalid_duplicated_hash
        = message_code.Response.success := hs
    exact absurd hbad (by decide)
  · cases hc : L.has_committed (txHashOf tx) with
    | true =>
      rw [create_icx_tx_of_committed L s tx hp hc] at hs
      have hbad : message_code.Response.fail_tx_invalid_duplicated_hash
          = message_code.Response.success := hs
      exact absurd hbad (by decide)
    | false => exact ⟨hp, rfl⟩

/-- The state invariant of C2: pairwise-distinct pending hashes, none of
them reported committed by the (fixed) ledger collaborator. -/
def DispatcherInv (L : Ledger) (s : ChannelState) : Prop :=
  ((s.tx_queue.map PendingTx.txHash).Nodup)
  ∧ ∀ e ∈ s.tx_queue, L.has_committed e.txHash = false

/-- Every handler preserves the dispatcher invariant. -/
theorem inv_step (L : Ledger) (s : ChannelState) (op : Op)
    (h : DispatcherInv L s) : DispatcherInv L (step L s op) := by
  cases op with
  | invokeResult th => rw [step, get_invoke_result_preserves_state]; exact h
  | txInfo th => rw [step, get_tx_info_preserves_state]; exact h
  | getBlock a b c d => rw [step, get_block_preserves_state]; exact h
  | createTx tx =>
    rcases create_icx_tx_cases L s tx with heq | ⟨hnp, hc, heq⟩
    · rw [step, heq]; exact h
    · rw [step, heq]
      obtain ⟨hnd, hcm⟩ := h
      have hnotin : txHashOf tx ∉ s.tx_queue.map PendingTx.txHash := by
        intro hmem
        rcases List.mem_map.mp hmem with ⟨e, he, heq2⟩
        exact hnp ⟨e, he, heq2⟩
      constructor
      · rw [List.map_append]
        simp [List.nodup_append, hnd, hnotin]
      · intro e he
        rcases List.mem_append.mp he with h1 | h1
        · exact hcm e h1
        · rw [List.mem_singleton.mp h1]; exact hc

/-- The dispatcher invariant holds in every reachable state. -/
theorem inv_run (L : Ledger) (ops : List Op) : DispatcherInv L (run L ops) := by
  have hinit : DispatcherInv L initState := by
    constructor
    · exact List.nodup_nil
    · intro e he; cases he
  have haux : ∀ (l : List Op) (s : ChannelState),
      DispatcherInv L s → DispatcherInv L (l.foldl (step L) s) := by
    intro l
    induction l with
    | nil => intro s hs; exact hs
    | cons op rest ih => intro s hs; exact ih _ (inv_step L s op hs)
  exact haux ops initState hinit

/-- C2: in every dispatcher state reachable from the empty pending queue by
the four handlers (against a fixed ledger collaborator), pending hashes are
pairwise distinct and none is reported committed; and a submission that
returned `success` is rejected as a duplicated hash when resubmitted, with
exactly one pending entry carrying its hash. -/
theorem pending_queue_invariant (L : Ledger) (ops : List Op) :
    (((run L ops).tx_queue.map PendingTx.txHash).Nodup
      ∧ ∀ e ∈ (run L ops).tx_queue, L.has_committed e.txHash = false)
    ∧ ∀ tx : Dict,
        ((create_icx_tx L (run L ops) tx).1).1 = message_code.Response.success →
        ((create_icx_tx L ((create_icx_tx L (run L ops) tx).2) tx).1).1
            = message_code.Response.fail_tx_invalid_duplicated_hash
        ∧ ((((create_icx_tx L (run L ops) tx).2).tx_queue.filter
              (fun e => e.txHash == txHashOf tx)).length = 1) := by
  refine ⟨inv_run L ops, ?_⟩
  intro tx hs
  obtain ⟨hnp, hc⟩ := create_icx_tx_success_fresh L (run L ops) tx hs
  have hfresh := create_icx_tx_of_fresh L (run L ops) tx hnp hc
  rw [hfresh]
  have hpend : pendingDup
      { run L ops with tx_queue :=
          (run L ops).tx_queue ++ [{ txHash := txHashOf tx, tx := tx }] }
      (txHashOf tx) :=
    ⟨{ txHash := txHashOf tx, tx := tx },
      List.mem_append_right _ (List.mem_singleton_self _), rfl⟩
  constructor
  · rw [create_icx_tx_of_pending L _ tx hpend]
  · have hfilq : (run L ops).tx_queue.filter (fun e => e.txHash == txHashOf tx) = [] := by
      rw [List.filter_eq_nil_iff]
      intro e he hbeq
      exact hnp ⟨e, he, beq_iff_eq.mp hbeq⟩
    simp [List.filter_append, hfilq]

/-- Witness for C2: a fresh submission against the empty ledger succeeds,
its resubmission is rejected, and the hash is pending exactly once. -/
theorem pending_queue_invariant_witness :
    ((create_icx_tx emptyLedger (run emptyLedger []) [("from", "a")]).1).1
        = message_code.Response.success
    ∧ ((create_icx_tx emptyLedger
          ((create_icx_tx emptyLedger (run emptyLedger []) [("from", "a")]).2)
          [("from", "a")]).1).1
        = message_code.Response.fail_tx_invalid_duplicated_hash
    ∧ ((((create_icx_tx emptyLedger (run emptyLedger []) [("from", "a")]).2).tx_queue.filter
          (fun e => e.txHash == txHashOf [("from", "a")])).length = 1) :=
  ⟨by decide,
    ((pending_queue_invariant emptyLedger []).2 [("from", "a")] (by decide)).1,
    ((pending_queue_invariant emptyLedger []).2 [("from", "a")] (by decide)).2⟩

/-- The response `get_block` builds from the outcome of one selected fetch:
the uniform failure shape when the fetch returned nothing, otherwise the
success shape read off the fetched block (`none` when the block carries no
`'block_hash'` key, modelling the uncaught `KeyError`). -/
def renderFetched (s : ChannelState) (input_hash : String) (fail_code : Int) :
    Option Dict → Option (Int × String × String × List String) × ChannelState
  | none => (some (fail_code, input_hash, "", []), s)
  | some b =>
    match b.lookup "block_hash" with
    | none => (none, s)
    | some h => (some (message_code.Response.success, h, json_dumps b, []), s)

/-- Selection case "latest": empty hash and height `-1` fetch the latest
committed block. -/
theorem get_block_latest_eq (L : Ledger) (s : ChannelState) (bh : Int)
    (bhash bf tf : String) (hh : bhash = "") (hht : bh = -1) :
    get_block L s bh bhash bf tf =
      renderFetched s bhash message_code.Response.fail_wrong_block_hash
        L.get_last_block := by
  subst hh hht
  unfold get_block renderFetched
  cases L.get_last_block with
  | none => simp [pyTruthyInt, message_code.Response.fail_wrong_block_hash]
  | some b => cases hb : b.lookup "block_hash" <;> simp [pyTruthyInt, hb]

/-- Selection case "by hash": a non-empty hash fetches by hash, whatever the
height argument. -/
theorem get_block_by_hash_eq (L : Ledger) (s : ChannelState) (bh : Int)
    (bhash bf tf : String) (hh : bhash ≠ "") :
    get_block L s bh bhash bf tf =
      renderFetched s bhash message_code.Response.fail_wrong_block_hash
        (L.get_block_by_hash bhash) := by
  have h1 : (bhash == "") = false := by
    rw [beq_eq_false_iff_ne]; exact hh
  unfold get_block renderFetched
  rw [h1]
  cases L.get_block_by_hash bhash with
  | none => simp [pyTruthyInt, hh, message_code.Response.fail_wrong_block_hash]
  | some b => cases hb : b.lookup "block_hash" <;> simp [pyTruthyInt, hh, hb]

/-- Selection case "by height": an empty hash with a height other than `-1`
fetches by height. -/
theorem get_block_by_height_eq (L : Ledger) (s : ChannelState) (bh : Int)
    (bhash bf tf : String) (hh : bhash = "") (hht : bh ≠ -1) :
    get_block L s bh bhash bf tf =
      renderFetched s bhash message_code.Response.fail_wrong_block_height
        (L.get_block_by_height bh) := by
  subst hh
  have h1 : (bh == (-1 : Int)) = false := by
    rw [beq_eq_false_iff_ne]; exact hht
  unfold get_block renderFetched
  rw [h1]
  cases L.get_block_by_height bh with
  | none => simp [pyTruthyInt, message_code.Response.fail_wrong_block_height]
  | some b => cases hb : b.lookup "block_hash" <;> simp [pyTruthyInt, hb]

/-- C3: `get_block` evaluates the block-selection policy in strict order:
empty hash with height `-1` fetches the latest committed block; otherwise a
non-empty hash fetches by hash, whatever the height value; otherwise the
block is fetched by height.  Each case is exactly the rendering of the one
selected collaborator fetch. -/
theorem get_block_selection_policy (L : Ledger) (s : ChannelState) (bh : Int)
    (bhash bf tf : String) :
    (bhash = "" ∧ bh = -1 →
      get_block L s bh bhash bf tf =
        renderFetched s bhash message_code.Response.fail_wrong_block_hash
          L.get_last_block)
    ∧ (bhash ≠ "" →
      get_block L s bh bhash bf tf =
        renderFetched s bhash message_code.Response.fail_wrong_block_hash
          (L.get_block_by_hash bhash))
    ∧ (bhash = "" ∧ bh ≠ -1 →
      get_block L s bh bhash bf tf =
        renderFetched s bhash message_code.Response.fail_wrong_block_height
          (L.get_block_by_height bh)) :=
  ⟨fun h => get_block_latest_eq L s bh bhash bf tf h.1 h.2,
    fun h => get_block_by_hash_eq L s bh bhash bf tf h,
    fun h => get_block_by_height_eq L s bh bhash bf tf h.1 h.2⟩

/-- Witness for C3: hash takes precedence over a conflicting height. -/
theorem get_block_selection_policy_witness :
    ("0xb1" : String) ≠ ""
    ∧ get_block sampleLedger initState 5 "0xb1" "" "" =
        renderFetched initState "0xb1" message_code.Response.fail_wrong_block_hash
          (sampleLedger.get_block_by_hash "0xb1") :=
  ⟨by decide,
    (get_block_selection_policy sampleLedger initState 5 "0xb1" "" "").2.1 (by decide)⟩

/-- C4: when the selected fetch returns nothing, `get_block` answers with
the single failure shape `(code, input_hash, "", [])`, the code being
`fail_wrong_block_hash` for the "latest" and by-hash selections and
`fail_wrong_block_height` for the by-height selection. -/
theorem get_block_failure_shape (L : Ledger) (s : ChannelState) (bh : Int)
    (bhash bf tf : String) :
    (bhash = "" → bh = -1 → L.get_last_block = none →
      get_block L s bh bhash bf tf =
        (some (message_code.Response.fail_wrong_block_hash, bhash, "", []), s))
    ∧ (bhash ≠ "" → L.get_block_by_hash bhash = none →
      get_block L s bh bhash bf tf =
        (some (message_code.Response.fail_wrong_block_hash, bhash, "", []), s))
    ∧ (bhash = "" → bh ≠ -1 → L.get_block_by_height bh = none →
      get_block L s bh bhash bf tf =
        (some (message_code.Response.fail_wrong_block_height, bhash, "", []), s)) := by
  refine ⟨fun h1 h2 h3 => ?_, fun h1 h3 => ?_, fun h1 h2 h3 => ?_⟩
  · rw [get_block_latest_eq L s bh bhash bf tf h1 h2, h3]; rfl
  · rw [get_block_by_hash_eq L s bh bhash bf tf h1, h3]; rfl
  · rw [get_block_by_height_eq L s bh bhash bf tf h1 h2, h3]; rfl

/-- Witness for C4: no block at height 99999 in the empty ledger. -/
theorem get_block_failure_shape_witness :
    emptyLedger.get_block_by_height 99999 = none
    ∧ get_block emptyLedger initState 99999 "" "" "" =
        (some (message_code.Response.fail_wrong_block_height, "", "", []), initState) :=
  ⟨rfl,
    (get_block_failure_shape emptyLedger initState 99999 "" "" "").2.2 rfl
      (by decide) rfl⟩

/-- C5: when the selected fetch returns a block, `get_block` answers
`(success, h, body, [])` with `h` the block's own `'block_hash'` field,
`body` the block's canonical serialization, and an empty filtered list for
every value of the two filters. -/
theorem get_block_success_shape (L : Ledger) (s : ChannelState) (bh : Int)
    (bhash bf tf : String) (b : Dict) (h : String) :
    (bhash = "" → bh = -1 → L.get_last_block = some b →
      b.lookup "block_hash" = some h →
      get_block L s bh bhash bf tf =
        (some (message_code.Response.success, h, json_dumps b, []), s))
    ∧ (bhash ≠ "" → L.get_block_by_hash bhash = some b →
      b.lookup "block_hash" = some h →
      get_block L s bh bhash bf tf =
        (some (message_code.Response.success, h, json_dumps b, []), s))
    ∧ (bhash = "" → bh ≠ -1 → L.get_block_by_height bh = some b →
      b.lookup "block_hash" = some h →
      get_block L s bh bhash bf tf =
        (some (message_code.Response.success, h, json_dumps b, []), s)) := by
  refine ⟨fun h1 h2 h3 h4 => ?_, fun h1 h3 h4 => ?_, fun h1 h2 h3 h4 => ?_⟩
  · rw [get_block_latest_eq L s bh bhash bf tf h1 h2, h3]
    simp [renderFetched, h4]
  · rw [get_block_by_hash_eq L s bh bhash bf tf h1, h3]
    simp [renderFetched, h4]
  · rw [get_block_by_height_eq L s bh bhash bf tf h1 h2, h3]
    simp [renderFetched, h4]

/-- Witness for C5: the latest block is served with its own hash and
serialized body while non-empty filters are ignored. -/
theorem get_block_success_shape_witness :
    sampleLedger.get_last_block = some sampleBlock
    ∧ sampleBlock.lookup "block_hash" = some "0xb1"
    ∧ get_block sampleLedger initState (-1) "" "some_filter" "other_filter" =
        (some (message_code.Response.success, "0xb1", json_dumps sampleBlock, []),
          initState) :=
  ⟨rfl, by decide,
    (get_block_success_shape sampleLedger initState (-1) "" "some_filter"
        "other_filter" sampleBlock "0xb1").1 rfl rfl rfl (by decide)⟩

/-- Evaluation of `get_invoke_result` on a hash with no committed result. -/
theorem get_invoke_result_none (L : Ledger) (s : ChannelState) (h : String)
    (hr : L.get_txresult h = none) :
    get_invoke_result L s h =
      ((message_code.Response.fail_tx_not_invoked, []), s) := by
  unfold get_invoke_result; rw [hr]

/-- Evaluation of `get_invoke_result` on a hash with a committed result. -/
theorem get_invoke_result_some (L : Ledger) (s : ChannelState) (h : String)
    (r : Dict) (hr : L.get_txresult h = some r) :
    get_invoke_result L s h = ((message_code.Response.success, r), s) := by
  unfold get_invoke_result; rw [hr]

/-- Evaluation of `get_tx_info` on a hash with no committed transaction. -/
theorem get_tx_info_none (L : Ledger) (s : ChannelState) (h : String)
    (hr : L.get_transaction h = none) :
    get_tx_info L s h =
      ((message_code.Response.fail_tx_invalid_hash_not_match, []), s) := by
  unfold get_tx_info; rw [hr]

/-- Evaluation of `get_tx_info` on a hash with a committed transaction. -/
theorem get_tx_info_some (L : Ledger) (s : ChannelState) (h : String)
    (t : Dict) (hr : L.get_transaction h = some t) :
    get_tx_info L s h = ((message_code.Response.success, t), s) := by
  unfold get_tx_info; rw [hr]

/-- C6: `get_invoke_result` answers `(fail_tx_not_invoked, empty)` exactly
when the ledger collaborator's result lookup returns nothing, and
`(success, result)` with the looked-up result otherwise; it mutates no
dispatcher state and its outcome is the same in every dispatcher state, so
a pending, not-yet-committed transaction yields `fail_tx_not_invoked`. -/
theorem get_invoke_result_spec (L : Ledger) (s : ChannelState) (h : String) :
    ((get_invoke_result L s h).1 = (message_code.Response.fail_tx_not_invoked, ([] : Dict))
        ↔ L.get_txresult h = none)
    ∧ (∀ r, L.get_txresult h = some r →
        (get_invoke_result L s h).1 = (message_code.Response.success, r))
    ∧ (get_invoke_result L s h).2 = s
    ∧ (∀ s2 : ChannelState, (get_invoke_result L s2 h).1 = (get_invoke_result L s h).1) := by
  refine ⟨⟨?_, ?_⟩, ?_, get_invoke_result_preserves_state L s h, ?_⟩
  · intro heq
    cases hr : L.get_txresult h with
    | none => rfl
    | some r =>
      rw [get_invoke_result_some L s h r hr] at heq
      have hcode : message_code.Response.success
          = message_code.Response.fail_tx_not_invoked :=
        congrArg Prod.fst heq
      exact absurd hcode (by decide)
  · intro hr
    rw [get_invoke_result_none L s h hr]
  · intro r hr
    rw [get_invoke_result_some L s h r hr]
  · intro s2
    cases hr : L.get_txresult h with
    | none => rw [get_invoke_result_none L s h hr, get_invoke_result_none L s2 h hr]
    | some r => rw [get_invoke_result_some L s h r hr, get_invoke_result_some L s2 h r hr]

/-- Witness for C6: a committed result is returned with `success`; an
unknown hash yields the failure pair. -/
theorem get_invoke_result_spec_witness :
    sampleLedger.get_txresult "aa" = some [("status", "0x1")]
    ∧ (get_invoke_result sampleLedger initState "aa").1 =
        (message_code.Response.success, [("status", "0x1")])
    ∧ ((get_invoke_result sampleLedger initState "0xdeadbeef").1 =
          (message_code.Response.fail_tx_not_invoked, ([] : Dict))
        ↔ sampleLedger.get_txresult "0xdeadbeef" = none) :=
  ⟨by decide,
    (get_invoke_result_spec sampleLedger initState "aa").2.1 [("status", "0x1")] (by decide),
    (get_invoke_result_spec sampleLedger initState "0xdeadbeef").1⟩

/-- C7: `get_tx_info` answers `(fail_tx_invalid_hash_not_match, empty)`
exactly when the ledger collaborator's committed-transaction lookup returns
nothing, and `(success, tx)` with the looked-up body otherwise; it mutates
no dispatcher state. -/
theorem get_tx_info_spec (L : Ledger) (s : ChannelState) (h : String) :
    ((get_tx_info L s h).1 = (message_code.Response.fail_tx_invalid_hash_not_match, ([] : Dict))
        ↔ L.get_transaction h = none)
    ∧ (∀ t, L.get_transaction h = some t →
        (get_tx_info L s h).1 = (message_code.Response.success, t))
    ∧ (get_tx_info L s h).2 = s := by
  refine ⟨⟨?_, ?_⟩, ?_, get_tx_info_preserves_state L s h⟩
  · intro heq
    cases hr : L.get_transaction h with
    | none => rfl
    | some t =>
      rw [get_tx_info_some L s h t hr] at heq
      have hcode : message_code.Response.success
          = message_code.Response.fail_tx_invalid_hash_not_match :=
        congrArg Prod.fst heq
      exact absurd hcode (by decide)
  · intro hr
    rw [get_tx_info_none L s h hr]
  · intro t hr
    rw [get_tx_info_some L s h t hr]

/-- Witness for C7: a committed transaction body is returned with `success`;
`"0xdeadbeef"` matches nothing and yields the failure pair. -/
theorem get_tx_info_spec_witness :
    sampleLedger.get_transaction "aa" = some [("from", "hx")]
    ∧ (get_tx_info sampleLedger initState "aa").1 =
        (message_code.Response.success, [("from", "hx")])
    ∧ ((get_tx_info sampleLedger initState "0xdeadbeef").1 =
          (message_code.Response.fail_tx_invalid_hash_not_match, ([] : Dict))
        ↔ sampleLedger.get_transaction "0xdeadbeef" = none) :=
  ⟨by decide,
    (get_tx_info_spec sampleLedger initState "aa").2.1 [("from", "hx")] (by decide),
    (get_tx_info_spec sampleLedger initState "0xdeadbeef").1⟩

/-- C8: the transaction identifier is deterministic: it is a pure function
of the transaction mapping (the hash of its canonical serialization), so two
mappings with the same field values always hash identically, the full
handler response is identical across runs of the same call, the success
payload is `"0x" + hash` in every dispatcher state, and the
duplicate-detection outcome depends on the payload only through its hash. -/
theorem create_icx_tx_deterministic (tx1 tx2 : Dict) (heq : tx1 = tx2) :
    txHashOf tx1 = txHashOf tx2
    ∧ (∀ L s, create_icx_tx L s tx1 = create_icx_tx L s tx2)
    ∧ (∀ L s, ((create_icx_tx L s tx1).1).1 = message_code.Response.success →
        ((create_icx_tx L s tx1).1).2 = some ("0x" ++ txHashOf tx1))
    ∧ (∀ L s (tx3 : Dict), txHashOf tx3 = txHashOf tx1 →
        ((create_icx_tx L s tx3).1).1 = ((create_icx_tx L s tx1).1).1) := by
  subst heq
  refine ⟨rfl, fun L s => rfl, fun L s hs => ?_, fun L s tx3 hh => ?_⟩
  · obtain ⟨hnp, hc⟩ := create_icx_tx_success_fresh L s tx1 hs
    rw [create_icx_tx_of_fresh L s tx1 hnp hc]
  · by_cases hp : pendingDup s (txHashOf tx1)
    · rw [create_icx_tx_of_pending L s tx1 hp,
        create_icx_tx_of_pending L s tx3 (hh ▸ hp)]
    · cases hc : L.has_committed (txHashOf tx1) with
      | true =>
        rw [create_icx_tx_of_committed L s tx1 hp hc,
          create_icx_tx_of_committed L s tx3 (hh ▸ hp) (hh ▸ hc)]
      | false =>
        rw [create_icx_tx_of_fresh L s tx1 hp hc,
          create_icx_tx_of_fresh L s tx3 (hh ▸ hp) (hh ▸ hc)]

/-- Witness for C8: the hash, response and payload of a concrete fresh
submission, with the hypotheses discharged at `tx1 = tx2`. -/
theorem create_icx_tx_deterministic_witness :
    txHashOf [("a", "1")] = txHashOf [("a", "1")]
    ∧ ((create_icx_tx emptyLedger initState [("a", "1")]).1).1
        = message_code.Response.success
    ∧ ((create_icx_tx emptyLedger initState [("a", "1")]).1).2
        = some ("0x" ++ txHashOf [("a", "1")]) :=
  ⟨(create_icx_tx_deterministic [("a", "1")] [("a", "1")] rfl).1,
    by decide,
    (create_icx_tx_deterministic [("a", "1")] [("a", "1")] rfl).2.2.1
      emptyLedger initState (by decide)⟩

/-- A ledger collaborator conforming to the spec's interface serves blocks
that carry their own hash (§4.2: "resolved_hash is the block's own
hash"). -/
def LedgerBlocksCarryHash (L : Ledger) : Prop :=
  (∀ b, L.get_last_block = some b → (b.lookup "block_hash").isSome = true)
  ∧ (∀ h b, L.get_block_by_hash h = some b → (b.lookup "block_hash").isSome = true)
  ∧ (∀ n b, L.get_block_by_height n = some b → (b.lookup "block_hash").isSome = true)

/-- Rendering a fetch whose blocks carry their hash always produces a
response. -/
theorem renderFetched_isSome (s : ChannelState) (ih : String) (fc : Int)
    (fetched : Option Dict)
    (hb : ∀ b, fetched = some b → (b.lookup "block_hash").isSome = true) :
    ((renderFetched s ih fc fetched).1).isSome = true := by
  cases fetched with
  | none => rfl
  | some b =>
    have := hb b rfl
    unfold renderFetched
    cases hlk : b.lookup "block_hash" with
    | none => rw [hlk] at this; exact absurd this (by decide)
    | some h => simp [hlk]

/-- C9: no handler raises across the boundary: for every request and every
response a spec-conformant ledger collaborator may return, `get_block`
produces a response (its success path finds the block's `'block_hash'`
field), and the three other handlers always return one of their two status
codes with a payload. -/
theorem handlers_total (L : Ledger) (hL : LedgerBlocksCarryHash L) :
    ∀ (s : ChannelState) (bh : Int) (bhash bf tf th : String) (tx : Dict),
    (((get_block L s bh bhash bf tf).1).isSome = true)
    ∧ (((create_icx_tx L s tx).1).1 = message_code.Response.success
        ∨ ((create_icx_tx L s tx).1).1
            = message_code.Response.fail_tx_invalid_duplicated_hash)
    ∧ (((get_invoke_result L s th).1).1 = message_code.Response.success
        ∨ ((get_invoke_result L s th).1).1 = message_code.Response.fail_tx_not_invoked)
    ∧ (((get_tx_info L s th).1).1 = message_code.Response.success
        ∨ ((get_tx_info L s th).1).1
            = message_code.Response.fail_tx_invalid_hash_not_match) := by
  intro s bh bhash bf tf th tx
  refine ⟨?_, ?_, ?_, ?_⟩
  · by_cases h1 : bhash = ""
    · by_cases h2 : bh = -1
      · rw [get_block_latest_eq L s bh bhash bf tf h1 h2]
        exact renderFetched_isSome s bhash _ _ (fun b => hL.1 b)
      · rw [get_block_by_height_eq L s bh bhash bf tf h1 h2]
        exact renderFetched_isSome s bhash _ _ (fun b => hL.2.2 bh b)
    · rw [get_block_by_hash_eq L s bh bhash bf tf h1]
      exact renderFetched_isSome s bhash _ _ (fun b => hL.2.1 bhash b)
  · by_cases hp : pendingDup s (txHashOf tx)
    · right; rw [create_icx_tx_of_pending L s tx hp]
    · cases hc : L.has_committed (txHashOf tx) with
      | true => right; rw [create_icx_tx_of_committed L s tx hp hc]
      | false => left; rw [create_icx_tx_of_fresh L s tx hp hc]
  · cases hr : L.get_txresult th with
    | none => right; rw [get_invoke_result_none L s th hr]
    | some r => left; rw [get_invoke_result_some L s th r hr]
  · cases hr : L.get_transaction th with
    | none => right; rw [get_tx_info_none L s th hr]
    | some t => left; rw [get_tx_info_some L s th t hr]

/-- Witness for C9 on a concrete conformant ledger. -/
theorem handlers_total_witness :
    LedgerBlocksCarryHash sampleLedger
    ∧ ((get_block sampleLedger initState (-1) "" "" "").1).isSome = true := by
  have wf : LedgerBlocksCarryHash sampleLedger := by
    refine ⟨?_, ?_, ?_⟩
    · intro b hb
      have h2 : some sampleBlock = some b := hb
      injection h2 with h3
      rw [← h3]; decide
    · intro h b hb
      have h2 : (if h == "0xb1" then some sampleBlock else none) = some b := hb
      split at h2
      · injection h2 with h3; rw [← h3]; decide
      · exact Option.noConfusion h2
    · intro n b hb
      have h2 : (if n == 1 then some sampleBlock else none) = some b := hb
      split at h2
      · injection h2 with h3; rw [← h3]; decide
      · exact Option.noConfusion h2
  exact ⟨wf, (handlers_total sampleLedger wf initState (-1) "" "" "" "h" []).1⟩

/-- C10: the dispatcher's `confirmed_tx_list` is empty at construction, no
handler touches it, and it is still empty after every request sequence. -/
theorem confirmed_tx_list_dead (L : Ledger) (ops : List Op) :
    initState.confirmed_tx_list = []
    ∧ (∀ (s : ChannelState) (op : Op),
        (step L s op).confirmed_tx_list = s.confirmed_tx_list)
    ∧ (run L ops).confirmed_tx_list = [] := by
  have hstep : ∀ (s : ChannelState) (op : Op),
      (step L s op).confirmed_tx_list = s.confirmed_tx_list := by
    intro s op
    cases op with
    | createTx tx =>
      rcases create_icx_tx_cases L s tx with heq | ⟨_, _, heq⟩ <;>
        rw [step, heq]
    | invokeResult th => rw [step, get_invoke_result_preserves_state]
    | txInfo th => rw [step, get_tx_info_preserves_state]
    | getBlock a b c d => rw [step, get_block_preserves_state]
  refine ⟨rfl, hstep, ?_⟩
  have haux : ∀ (l : List Op) (s : ChannelState),
      s.confirmed_tx_list = [] → (l.foldl (step L) s).confirmed_tx_list = [] := by
    intro l
    induction l with
    | nil => intro s hs; exact hs
    | cons op rest ih =>
      intro s hs
      exact ih _ ((hstep s op).trans hs)
  exact haux ops initState rfl

/-- Witness for C1 at a concrete fresh submission. -/
theorem create_icx_tx_follows_algorithm_witness :
    ¬ pendingDup initState (txHashOf [("from", "a")])
    ∧ emptyLedger.has_committed (txHashOf [("from", "a")]) = false
    ∧ create_icx_tx emptyLedger initState [("from", "a")] =
        ((message_code.Response.success, some ("0x" ++ txHashOf [("from", "a")])),
          { initState with tx_queue :=
              initState.tx_queue ++
                [{ txHash := txHashOf [("from", "a")], tx := [("from", "a")] }] }) :=
  ⟨by decide, by decide,
    (create_icx_tx_follows_algorithm emptyLedger initState [("from", "a")]).2.2
      (by decide) (by decide)⟩
